import Mathlib

/-!
Verification development for the zrepl replication planner core.

The definitions below are a shallow embedding of the Go sources:
  * the per-filesystem planner (`Filesystem.doPlanning`), the conflict
    auto-resolver (`tryAutoresolveConflict`), step execution
    (`Step.sendRecv`), step equality (`Step.TargetEquals`) and progress
    reporting (`Step.ReportInfo`) from the replication logic package;
  * the batched snapshot destroyer (`doDestroy`, `buildBatches`,
    `tryBatch`) from the zfs package.

Types that the logic package imports from packages whose sources are not
part of this tree (the pdu protobuf messages, the diff package's conflict
variants and version sort, the zfs resume token) are modelled from the
specification; each such definition carries a doc comment saying so.
-/

/-- Modelled from the spec: pdu.FilesystemVersion_VersionType, the kind of a
filesystem version, snapshot or bookmark (pdu generated code is not in the
tree). -/
inductive VersionType where
  | snapshot
  | bookmark
  deriving DecidableEq

/-- Modelled from the spec: pdu.FilesystemVersion, one snapshot or bookmark
on an endpoint with its short name, storage-assigned 64-bit GUID and
creation TXG (pdu generated code is not in the tree). -/
structure FilesystemVersion where
  type : VersionType
  name : String
  guid : Nat
  createtxg : Nat
  deriving DecidableEq

/-- Modelled from the spec: the protobuf getter `GetGuid` on a possibly-nil
`*pdu.FilesystemVersion` returns the zero value for a nil receiver. -/
def GetGuid (v : Option FilesystemVersion) : Nat :=
  match v with
  | none => 0
  | some x => x.guid

/-- Modelled from the spec: pdu.FilesystemVersion.RelName, the version's
short name prefixed by the separator of its kind, `@` for a snapshot and
`#` for a bookmark (pdu generated code is not in the tree). -/
def relName (v : FilesystemVersion) : String :=
  (match v.type with
   | VersionType.snapshot => "@"
   | VersionType.bookmark => "#") ++ v.name

/-- Modelled from the spec: pdu.Filesystem, one endpoint-side filesystem
descriptor with its path, placeholder flag and (receiver side) resume
token string. -/
structure PduFilesystem where
  path : String
  isPlaceholder : Bool
  resumeToken : String
  deriving DecidableEq

/-- Embedding of the logic package's `Filesystem`: the per-filesystem
planning state. Endpoint handles, policy and the prometheus counter are
omitted; `senderFS` and `receiverFS` keep the descriptor data so that two
distinct `Filesystem` values may share the same `Path`. -/
structure Filesystem where
  Path : String
  senderFS : PduFilesystem
  receiverFS : Option PduFilesystem
  deriving DecidableEq

/-- Embedding of `Filesystem.EqualToPreviousAttempt`: two filesystems are
considered the same when their paths are equal. -/
def Filesystem.EqualToPreviousAttempt (f g : Filesystem) : Bool :=
  f.Path == g.Path

/-- Embedding of the logic package's `Step`: one send/receive round-trip,
with optional from-version (nil means full send), to-version, the raw
resume token (empty means none) and the runtime fields `expectedSize` and
`byteCounter` (`none` until `WithByteCounter` installs the counter). -/
structure Step where
  parent : Filesystem
  fromV : Option FilesystemVersion
  toV : Option FilesystemVersion
  resumeToken : String := ""
  expectedSize : Nat := 0
  byteCounter : Option Nat := none
  deriving DecidableEq

/-- Embedding of `Step.TargetEquals`. The Go method panics when
`EqualToPreviousAttempt` rejects the two parents; the panic is modelled as
`Except.error`. -/
def TargetEquals (s t : Step) : Except String Bool :=
  if s.parent.EqualToPreviousAttempt t.parent then
    Except.ok (GetGuid s.fromV == GetGuid t.fromV &&
      GetGuid s.toV == GetGuid t.toV)
  else
    Except.error "Step interface promise broken: parent filesystems must be same"

/-- Embedding of report.StepInfo, the progress record returned by
`Step.ReportInfo`. -/
structure StepInfo where
  From : String
  To : String
  Resumed : Bool
  BytesExpected : Nat
  BytesReplicated : Nat
  deriving DecidableEq

/-- Embedding of `Step.ReportInfo`. The byte counter contributes 0 while it
is not installed. The Go code calls `RelName` on the to-version without a
nil check; a nil to-version would be a nil dereference, modelled as
`none`. -/
def ReportInfo (s : Step) : Option StepInfo :=
  match s.toV with
  | none => none
  | some tv =>
    some
      { From := match s.fromV with
                 | none => ""
                 | some v => relName v
        To := relName tv
        Resumed := s.resumeToken != ""
        BytesExpected := s.expectedSize
        BytesReplicated := match s.byteCounter with
                            | none => 0
                            | some c => c }

/-- Modelled from the spec: the decoded zfs resume token with its
from-guid (optional), to-guid and to-name (zfs.ParseResumeToken is not in
the tree). -/
structure ResumeToken where
  hasFromGUID : Bool
  fromGUID : Nat
  hasToGUID : Bool
  toGUID : Nat
  toName : String
  deriving DecidableEq

/-- Modelled from the spec: the policy enum
`InitialReplicationAutoResolution` with values MostRecent, All and Fail. -/
inductive InitialReplicationAutoResolution where
  | mostRecent
  | all
  | fail
  deriving DecidableEq

/-- Modelled from the spec: the `ConflictResolution` policy record consumed
by the auto-resolver. -/
structure ConflictResolution where
  initialReplication : InitialReplicationAutoResolution
  deriving DecidableEq

/-- Modelled from the spec: the diff package's conflict classification, a
tagged variant over sorted version lists (the diff package is not in the
tree). -/
inductive Conflict where
  | noCommonAncestor (sortedSenderVersions sortedReceiverVersions : List FilesystemVersion)
  | divergedAfter (commonAncestor senderTip receiverTip : FilesystemVersion)
  | mostRecentSnapshotAlreadyPresent (sortedSenderVersions sortedReceiverVersions : List FilesystemVersion)
  deriving DecidableEq

/-- Result of the auto-resolver when it does not return a path: either a
fresh terminal error message or the original conflict passed through
unchanged. -/
inductive ResolveErr where
  | msg (s : String)
  | conflict (c : Conflict)
  deriving DecidableEq

/-- Embedding of `tryAutoresolveConflict`: Go returns `(path, reason)`;
success is `Except.ok path` (the no-op case returns the nil path, i.e.
`[]`), failure is `Except.error` carrying either a new error message or
the unchanged conflict. Path entries are `Option FilesystemVersion`
because the Go slice holds pointers and the leading entry (and, for a
snapshot-less sender under MostRecent, the selected entry) is nil. -/
def tryAutoresolveConflict (conflict : Conflict) (policy : ConflictResolution) :
    Except ResolveErr (List (Option FilesystemVersion)) :=
  match conflict with
  | Conflict.mostRecentSnapshotAlreadyPresent _ _ => Except.ok []
  | Conflict.noCommonAncestor svs rvs =>
    if rvs = [] then
      if svs = [] then
        Except.error (ResolveErr.msg "no snapshots available on sender side")
      else
        match policy.initialReplication with
        | InitialReplicationAutoResolution.mostRecent =>
          Except.ok [none, svs.reverse.find? (fun v => v.type == VersionType.snapshot)]
        | InitialReplicationAutoResolution.all =>
          Except.ok (none :: (svs.filter (fun v => v.type == VersionType.snapshot)).map some)
        | InitialReplicationAutoResolution.fail =>
          Except.error (ResolveErr.msg
            "automatic conflict resolution for initial replication is disabled in config")
    else
      Except.error (ResolveErr.conflict conflict)
  | Conflict.divergedAfter _ _ _ => Except.error (ResolveErr.conflict conflict)

/-- Modelled from the spec: the diff package's version ordering, creation
TXG ascending with the tie-break that a bookmark sorts before a snapshot of
the same TXG (SortVersionListByCreateTXGThenBookmarkLTSnapshot is not in
the tree). -/
def versionLE (a b : FilesystemVersion) : Prop :=
  a.createtxg < b.createtxg ∨
    (a.createtxg = b.createtxg ∧
      (a.type = VersionType.bookmark ∨ b.type = VersionType.snapshot))

instance : DecidableRel versionLE := fun a b => by
  unfold versionLE
  infer_instance

/-- Modelled from the spec: the diff package's sort of a version list by
`versionLE`. -/
def sortVersions (l : List FilesystemVersion) : List FilesystemVersion :=
  List.insertionSort versionLE l

/-- Embedding of the version-lookup loop at the top of the resume branch of
`Filesystem.doPlanning`: scan the sorted sender versions, remembering the
from-version matching the token's from-guid (preferring a snapshot over a
bookmark) and the last snapshot matching the token's to-guid. Go keeps
pointers into the slice; the model keeps (index, value) pairs so that Go's
pointer equality is index equality. -/
def scanResume (tok : ResumeToken) :
    Nat → Option (Nat × FilesystemVersion) → Option (Nat × FilesystemVersion) →
    List FilesystemVersion →
    Option (Nat × FilesystemVersion) × Option (Nat × FilesystemVersion)
  | _, fromS, toS, [] => (fromS, toS)
  | i, fromS, toS, v :: rest =>
    scanResume tok (i + 1)
      (if tok.hasFromGUID = true ∧ v.guid = tok.fromGUID then
        match fromS with
        | some p => if p.2.type = VersionType.snapshot then some p else some (i, v)
        | none => some (i, v)
      else fromS)
      (if tok.hasToGUID = true ∧ v.guid = tok.toGUID ∧ v.type = VersionType.snapshot then
        some (i, v)
      else toS)
      rest

theorem scanResume_nil (tok : ResumeToken) (i : Nat)
    (fromS toS : Option (Nat × FilesystemVersion)) :
    scanResume tok i fromS toS [] = (fromS, toS) := rfl

theorem scanResume_cons (tok : ResumeToken) (i : Nat)
    (fromS toS : Option (Nat × FilesystemVersion)) (v : FilesystemVersion)
    (rest : List FilesystemVersion) :
    scanResume tok i fromS toS (v :: rest) =
      scanResume tok (i + 1)
        (if tok.hasFromGUID = true ∧ v.guid = tok.fromGUID then
          match fromS with
          | some p => if p.2.type = VersionType.snapshot then some p else some (i, v)
          | none => some (i, v)
        else fromS)
        (if tok.hasToGUID = true ∧ v.guid = tok.toGUID ∧ v.type = VersionType.snapshot then
          some (i, v)
        else toS)
        rest := rfl

/-- Embedding of the incremental-steps loop shared by both branches of the
resume case when no collapsing happens: one step per consecutive pair of
remaining snapshots. -/
def consecutiveSteps (fs : Filesystem) : List FilesystemVersion → List Step
  | a :: b :: rest =>
    { parent := fs, fromV := some a, toV := some b } :: consecutiveSteps fs (b :: rest)
  | _ => []

/-- Embedding of the step construction in the resume branch of
`Filesystem.doPlanning` after `fromVersion`/`toVersion` have been located:
build the resume step, compute the remaining snapshots from the to-version
onward, and either collapse the tail into one step (one-step policy and
more than one remaining snapshot) or emit consecutive incrementals. -/
def planResumeSteps (fs : Filesystem) (oneStep : Bool) (raw : String)
    (fromV : Option FilesystemVersion) (tsel : Nat × FilesystemVersion)
    (sorted : List FilesystemVersion) : Except String (List Step) :=
  if oneStep = true then
    match (sorted.drop tsel.1).filter (fun v => v.type == VersionType.snapshot) with
    | r0 :: r1 :: rest =>
      Except.ok [{ parent := fs, fromV := fromV, toV := some tsel.2, resumeToken := raw },
        { parent := fs, fromV := some r0, toV := some (rest.getLastD r1) }]
    | rem =>
      Except.ok ({ parent := fs, fromV := fromV, toV := some tsel.2, resumeToken := raw } ::
        consecutiveSteps fs rem)
  else
    Except.ok ({ parent := fs, fromV := fromV, toV := some tsel.2, resumeToken := raw } ::
      consecutiveSteps fs
        ((sorted.drop tsel.1).filter (fun v => v.type == VersionType.snapshot)))

/-- Embedding of the resume branch of `Filesystem.doPlanning` (resume token
already decoded): sort the sender versions, locate from/to versions for
the token, fail when the to-version is missing or when from and to resolve
to the same version (Go compares the two pointers), otherwise build the
step list. -/
def planResume (fs : Filesystem) (oneStep : Bool) (raw : String)
    (tok : ResumeToken) (sfsvs : List FilesystemVersion) :
    Except String (List Step) :=
  match scanResume tok 0 none none (sortVersions sfsvs) with
  | (_, none) => Except.error "resume token toguid not found on sender"
  | (some fsel, some tsel) =>
    if fsel.1 = tsel.1 then
      Except.error "resume token fromguid and toguid match same version on sender"
    else
      planResumeSteps fs oneStep raw (some fsel.2) tsel (sortVersions sfsvs)
  | (none, some tsel) => planResumeSteps fs oneStep raw none tsel (sortVersions sfsvs)

/-- Embedding of the `sendStream` condition inside the non-resume step
loop: the from-version exists, the one-step policy is set, and the
from-version is a snapshot. -/
def sendStreamCond (oneStep : Bool) (x : Option FilesystemVersion) : Bool :=
  match x with
  | some v => oneStep && (v.type == VersionType.snapshot)
  | none => false

/-- Embedding of the step-derivation loop of the non-resume branch of
`Filesystem.doPlanning`: one step per consecutive path pair, except that
when `sendStreamCond` holds for the step's from-version the step's
to-version is replaced by the last path entry and the loop breaks. -/
def stepsLoop (fs : Filesystem) (oneStep : Bool) :
    List (Option FilesystemVersion) → List Step
  | x :: y :: rest =>
    if sendStreamCond oneStep x then
      [{ parent := fs, fromV := x, toV := (y :: rest).getLastD y }]
    else
      { parent := fs, fromV := x, toV := y } :: stepsLoop fs oneStep (y :: rest)
  | _ => []

/-- Embedding of the switch on the path length in the non-resume branch of
`Filesystem.doPlanning`: an empty path yields no steps, a length-one path
panics (modelled as `Except.error`), otherwise the step loop runs. -/
def doPlanningNoResume (fs : Filesystem) (oneStep : Bool)
    (path : List (Option FilesystemVersion)) : Except String (List Step) :=
  match path with
  | [] => Except.ok []
  | [_] =>
    Except.error
      "len(path) must be two for incremental repl, and initial repl must start with nil"
  | _ => Except.ok (stepsLoop fs oneStep path)

/-- Embedding of pdu.SendReq as built by `Step.buildSendRequest` (the
opaque replication config passthrough is omitted). -/
structure SendReq where
  filesystem : String
  fromV : Option FilesystemVersion
  toV : Option FilesystemVersion
  resumeToken : String
  deriving DecidableEq

/-- Embedding of `Step.buildSendRequest`. -/
def buildSendRequest (s : Step) : SendReq :=
  { filesystem := s.parent.Path
    fromV := s.fromV
    toV := s.toV
    resumeToken := s.resumeToken }

/-- Embedding of the send result metadata pdu.SendRes (only the field the
step engine reads). -/
structure SendRes where
  usedResumeToken : Bool
  deriving DecidableEq

/-- Embedding of pdu.ReceiveReq as built by `Step.sendRecv` (the opaque
replication config passthrough is omitted). -/
structure ReceiveReq where
  filesystem : String
  toV : Option FilesystemVersion
  clearResumeToken : Bool
  deriving DecidableEq

/-- Outcome of the sender's `Send` call: either a transport error, or a
result/stream pair in which Go allows each component to be nil. Streams
are named by an identifier. -/
inductive SendOutcome where
  | err (e : String)
  | ok (sres : Option SendRes) (stream : Option Nat)
  deriving DecidableEq

/-- Embedding of `Step.sendRecv`: switch on the send outcome (transport
error, nil result, nil stream), then build the receive request with
`clearResumeToken = !usedResumeToken` and call the receiver. The second
component records every `Receive` call made. -/
def sendRecvModel (s : Step) (out : SendOutcome)
    (receive : ReceiveReq → Except String Unit) :
    Except String Unit × List ReceiveReq :=
  let sr := buildSendRequest s
  match out with
  | SendOutcome.err e => (Except.error e, [])
  | SendOutcome.ok none _ =>
    (Except.error "send request returned nil send result", [])
  | SendOutcome.ok (some _) none =>
    (Except.error "send request did not return a stream, broken endpoint implementation", [])
  | SendOutcome.ok (some sres) (some _) =>
    let rr : ReceiveReq :=
      { filesystem := s.parent.Path
        toV := sr.toV
        clearResumeToken := !sres.usedResumeToken }
    (receive rr, [rr])

/-- Embedding of zfs.DestroySnapOp (the error out-pointer is replaced by
returning the assigned error alongside the op where needed). -/
structure DestroySnapOp where
  Filesystem : String
  Name : String
  deriving DecidableEq

/-- Embedding of the validation switch in `doDestroy`: the error assigned
to a request, if any. An empty filesystem wins over an empty name, as in
the Go switch. -/
def validationError (r : DestroySnapOp) : Option String :=
  if r.Filesystem = "" then some "Filesystem must not be an empty string"
  else if r.Name = "" then some "Name must not be an empty string"
  else none

/-- Embedding of the `validated` list built by `doDestroy`: the requests
that pass validation, in order. -/
def validatedReqs (reqs : List DestroySnapOp) : List DestroySnapOp :=
  reqs.filter (fun r => (validationError r).isNone)

/-- Lexicographic order on character lists, modelling Go's byte-wise
`strings.Compare` returning -1. -/
def ltChars : List Char → List Char → Bool
  | [], [] => false
  | [], _ :: _ => true
  | _ :: _, [] => false
  | a :: as, b :: bs => if a < b then true else if b < a then false else ltChars as bs

/-- Lexicographic string comparison via the characters, modelling Go's
`strings.Compare(a, b) == -1`. -/
def strLt (a b : String) : Bool := ltChars a.data b.data

/-- Embedding of the `sort.SliceStable` comparator in `buildBatches`: by
filesystem, then by snapshot name. -/
def lessOp (a b : DestroySnapOp) : Bool :=
  if a.Filesystem = b.Filesystem then strLt a.Name b.Name
  else strLt a.Filesystem b.Filesystem

/-- The non-strict order induced by `lessOp`; a stable sort with it matches
`sort.SliceStable` with `lessOp`. -/
def leOp (a b : DestroySnapOp) : Prop := lessOp b a = false

instance : DecidableRel leOp := fun a b => by
  unfold leOp
  infer_instance

/-- Embedding of the stable sort at the top of `buildBatches`. -/
def sortedOps (reqs : List DestroySnapOp) : List DestroySnapOp :=
  List.insertionSort leOp reqs

/-- Embedding of the inner scan of the grouping loop in `buildBatches`:
starting with `k` ops already in the batch, extend the batch while the
filesystem matches the batch head's and, when `maxB ≥ 1`, the batch holds
fewer than `maxB` ops. Returns the extension and the unconsumed rest. -/
def takeSameFS (fs : String) (maxB : Int) :
    Nat → List DestroySnapOp → List DestroySnapOp × List DestroySnapOp
  | _, [] => ([], [])
  | k, x :: xs =>
    if (maxB < 1 ∨ (k : Int) < maxB) ∧ x.Filesystem = fs then
      let r := takeSameFS fs maxB (k + 1) xs
      (x :: r.1, r.2)
    else
      ([], x :: xs)

theorem takeSameFS_append (fs : String) (maxB : Int) :
    ∀ k l, (takeSameFS fs maxB k l).1 ++ (takeSameFS fs maxB k l).2 = l := by
  intro k l
  induction l generalizing k with
  | nil => simp [takeSameFS]
  | cons x xs ih =>
    by_cases h : (maxB < 1 ∨ (k : Int) < maxB) ∧ x.Filesystem = fs
    · simp [takeSameFS, h, ih (k + 1)]
    · simp [takeSameFS, h]

theorem takeSameFS_snd_length (fs : String) (maxB : Int) :
    ∀ k l, (takeSameFS fs maxB k l).2.length ≤ l.length := by
  intro k l
  induction l generalizing k with
  | nil => simp [takeSameFS]
  | cons x xs ih =>
    by_cases h : (maxB < 1 ∨ (k : Int) < maxB) ∧ x.Filesystem = fs
    · simpa [takeSameFS, h] using Nat.le_succ_of_le (ih (k + 1))
    · simp [takeSameFS, h]

theorem takeSameFS_fst_fs (fs : String) (maxB : Int) :
    ∀ k l y, y ∈ (takeSameFS fs maxB k l).1 → y.Filesystem = fs := by
  intro k l
  induction l generalizing k with
  | nil => simp [takeSameFS]
  | cons x xs ih =>
    intro y hy
    by_cases h : (maxB < 1 ∨ (k : Int) < maxB) ∧ x.Filesystem = fs
    · rw [takeSameFS, if_pos h] at hy
      rcases List.mem_cons.mp hy with rfl | hmem
      · exact h.2
      · exact ih (k + 1) y hmem
    · rw [takeSameFS, if_neg h] at hy
      simp at hy

/-- Embedding of the grouping loop of `buildBatches`, structured with
explicit fuel so it stays structurally recursive: each batch starts at the
first unconsumed op (always taken, because `0 < maxB` or `maxB < 1` holds
for every `maxB` and its own filesystem trivially matches) and extends by
`takeSameFS`. The Go loop consumes at least one op per iteration, so fuel
equal to the list length is exact. -/
def groupBatchesFuel (maxB : Int) : Nat → List DestroySnapOp → List (List DestroySnapOp)
  | 0, _ => []
  | _, [] => []
  | fuel + 1, x :: xs =>
    (x :: (takeSameFS x.Filesystem maxB 1 xs).1) ::
      groupBatchesFuel maxB fuel (takeSameFS x.Filesystem maxB 1 xs).2

/-- The grouping loop of `buildBatches` with its exact fuel. -/
def groupBatches (maxB : Int) (l : List DestroySnapOp) : List (List DestroySnapOp) :=
  groupBatchesFuel maxB l.length l

/-- Embedding of `buildBatches`: nil for no requests, otherwise sort stably
by (filesystem, name) and group consecutive runs of one filesystem,
bounded by the `ZREPL_DESTROY_MAX_BATCH_SIZE` value `maxB` (0 means
unbounded). -/
def buildBatches (maxB : Int) (reqs : List DestroySnapOp) :
    List (List DestroySnapOp) :=
  if reqs = [] then [] else groupBatches maxB (sortedOps reqs)

/-- Embedding of `tryBatch`: an empty batch destroys nothing, a batch whose
ops all share the head's filesystem is turned into one `fs@n1,n2,...`
destroy argument, and a mixed batch panics (modelled as `Except.error`).
`Except.ok` carries the destroy argument passed on, if any. -/
def tryBatch (batch : List DestroySnapOp) : Except String (Option String) :=
  match batch with
  | [] => Except.ok none
  | b0 :: _ =>
    if batch.all (fun r => r.Filesystem == b0.Filesystem) then
      Except.ok (some (b0.Filesystem ++ "@" ++
        String.intercalate "," (batch.map (fun r => r.Name))))
    else
      Except.error "inconsistent batch"

/-- Ordering of versions by creation TXG, used to state "in TXG order". -/
def txgLE (a b : FilesystemVersion) : Prop := a.createtxg ≤ b.createtxg

instance : DecidableRel txgLE := fun a b => by
  unfold txgLE
  infer_instance

/-- Policy value with initial replication resolution All. -/
def polAll : ConflictResolution := ⟨InitialReplicationAutoResolution.all⟩

/-- Policy value with initial replication resolution MostRecent. -/
def polMostRecent : ConflictResolution := ⟨InitialReplicationAutoResolution.mostRecent⟩

/-- Sample planning filesystem used by witnesses and counterexamples. -/
def sampleFS : Filesystem := ⟨"zroot/data", ⟨"zroot/data", false, ""⟩, none⟩

/-- Sample snapshot, GUID 1, TXG 1. -/
def snapA : FilesystemVersion := ⟨VersionType.snapshot, "a", 1, 1⟩

/-- Sample snapshot, GUID 2, TXG 2. -/
def snapB : FilesystemVersion := ⟨VersionType.snapshot, "b", 2, 2⟩

/-- Sample snapshot, GUID 3, TXG 3. -/
def snapC : FilesystemVersion := ⟨VersionType.snapshot, "c", 3, 3⟩

/-- Sample bookmark, GUID 5, TXG 2. -/
def bookB : FilesystemVersion := ⟨VersionType.bookmark, "bm", 5, 2⟩

/-- A version's relative name is never the empty string: it starts with the
kind separator. -/
theorem relName_ne_empty (v : FilesystemVersion) : relName v ≠ "" := by
  unfold relName
  cases v.type <;>
    · intro h
      have hlen := congrArg String.length h
      simp [String.length_append] at hlen
      exact absurd hlen.1 (by decide)

/-- The snapshot found scanning a TXG-sorted list from its end has maximal
TXG among all entries satisfying the predicate. -/
theorem find_reverse_max {p : FilesystemVersion → Bool} :
    ∀ l : List FilesystemVersion, l.Pairwise txgLE →
      ∀ s, l.reverse.find? p = some s →
        ∀ v ∈ l, p v = true → v.createtxg ≤ s.createtxg := by
  intro l
  induction l with
  | nil =>
    intro _ s h
    simp at h
  | cons a l ih =>
    intro hp s hfind v hv hpv
    rw [List.reverse_cons, List.find?_append] at hfind
    rcases hl : l.reverse.find? p with _ | s0
    · rw [hl] at hfind
      simp only [Option.or] at hfind
      rcases List.mem_cons.mp hv with rfl | hvl
      · have hsa : s = v := by
          by_cases hpa : p v = true
          · simp [List.find?, hpa] at hfind
            exact hfind.symm
          · simp [List.find?, hpa] at hfind
        rw [hsa]
      · exact absurd hpv (List.find?_eq_none.mp hl v (List.mem_reverse.mpr hvl))
    · rw [hl] at hfind
      simp only [Option.or, Option.some.injEq] at hfind
      subst hfind
      rcases List.mem_cons.mp hv with rfl | hvl
      · exact (List.pairwise_cons.mp hp).1 s0
          (List.mem_reverse.mp (List.mem_of_find?_eq_some hl))
      · exact ih (List.pairwise_cons.mp hp).2 s0 hl v hvl hpv

/-- C3: for a NoCommonAncestor conflict with empty receiver list and
non-empty sender list, the resolver under policy All returns, without
error, the path beginning with nil followed by exactly the sender
snapshots in order; the tail contains only snapshots and stays in TXG
order. -/
theorem c3_all_resolution (svs : List FilesystemVersion) (hne : svs ≠ [])
    (hsorted : svs.Pairwise txgLE) :
    tryAutoresolveConflict (Conflict.noCommonAncestor svs []) polAll =
      Except.ok (none :: (svs.filter (fun v => v.type == VersionType.snapshot)).map some)
    ∧ (∀ v ∈ svs.filter (fun v => v.type == VersionType.snapshot),
        v.type = VersionType.snapshot)
    ∧ (svs.filter (fun v => v.type == VersionType.snapshot)).Pairwise txgLE := by
  refine ⟨?_, ?_, ?_⟩
  · simp [tryAutoresolveConflict, hne, polAll]
  · intro v hv
    simpa using (List.mem_filter.mp hv).2
  · exact List.Pairwise.sublist (List.filter_sublist svs) hsorted

/-- Witness for C3 at a concrete mixed sender list. -/
theorem c3_all_resolution_witness :
    tryAutoresolveConflict (Conflict.noCommonAncestor [snapA, bookB, snapC] []) polAll =
      Except.ok (none ::
        ([snapA, bookB, snapC].filter (fun v => v.type == VersionType.snapshot)).map some)
    ∧ (∀ v ∈ [snapA, bookB, snapC].filter (fun v => v.type == VersionType.snapshot),
        v.type = VersionType.snapshot)
    ∧ ([snapA, bookB, snapC].filter
        (fun v => v.type == VersionType.snapshot)).Pairwise txgLE :=
  c3_all_resolution [snapA, bookB, snapC] (by decide) (by decide)

/-- A bookmark-only sender list. -/
def bookOnly : List FilesystemVersion := [⟨VersionType.bookmark, "b1", 5, 1⟩]

/-- Counterexample to C4: for a non-empty sender list holding no snapshot,
the resolver under MostRecent returns the path [nil, nil] with no error,
so the returned path is not [nil, s] for a latest sender snapshot s. -/
theorem c4_counterexample :
    bookOnly ≠ []
    ∧ tryAutoresolveConflict (Conflict.noCommonAncestor bookOnly []) polMostRecent =
        Except.ok [none, none]
    ∧ ¬ ∃ s : FilesystemVersion, s.type = VersionType.snapshot ∧
        tryAutoresolveConflict (Conflict.noCommonAncestor bookOnly []) polMostRecent =
          Except.ok [none, some s] := by
  refine ⟨by decide, rfl, ?_⟩
  rintro ⟨s, _, h⟩
  have h0 : tryAutoresolveConflict (Conflict.noCommonAncestor bookOnly []) polMostRecent =
      Except.ok [none, none] := rfl
  rw [h0] at h
  simp at h

/-- C4 amended: for a NoCommonAncestor conflict with empty receiver list
and a sender list holding at least one snapshot, the resolver under
MostRecent returns [nil, s] without error, where s is the sender snapshot
of maximal TXG, bookmarks skipped; a non-empty sender list without any
snapshot instead yields [nil, nil]. -/
theorem c4_most_recent_amended (svs : List FilesystemVersion)
    (hsnap : ∃ v ∈ svs, v.type = VersionType.snapshot)
    (hsorted : svs.Pairwise txgLE) :
    ∃ s : FilesystemVersion,
      tryAutoresolveConflict (Conflict.noCommonAncestor svs []) polMostRecent =
        Except.ok [none, some s]
      ∧ s.type = VersionType.snapshot
      ∧ s ∈ svs
      ∧ ∀ v ∈ svs, v.type = VersionType.snapshot → v.createtxg ≤ s.createtxg := by
  obtain ⟨w, hwmem, hwtype⟩ := hsnap
  have hne : svs ≠ [] := fun h => by subst h; simp at hwmem
  have hsome : (svs.reverse.find? (fun v => v.type == VersionType.snapshot)).isSome = true := by
    rw [List.find?_isSome]
    exact ⟨w, List.mem_reverse.mpr hwmem, by simp [hwtype]⟩
  obtain ⟨s, hs⟩ := Option.isSome_iff_exists.mp hsome
  refine ⟨s, ?_, ?_, ?_, ?_⟩
  · simp [tryAutoresolveConflict, hne, polMostRecent, hs]
  · simpa using List.find?_some hs
  · exact List.mem_reverse.mp (List.mem_of_find?_eq_some hs)
  · intro v hv hvt
    exact find_reverse_max svs hsorted s hs v hv (by simp [hvt])

/-- Witness for C4 amended at a concrete sender list with a trailing
bookmark after the last snapshot. -/
theorem c4_most_recent_amended_witness :
    ∃ s : FilesystemVersion,
      tryAutoresolveConflict (Conflict.noCommonAncestor [snapA, bookB, snapC] [])
          polMostRecent =
        Except.ok [none, some s]
      ∧ s.type = VersionType.snapshot
      ∧ s ∈ [snapA, bookB, snapC]
      ∧ ∀ v ∈ [snapA, bookB, snapC], v.type = VersionType.snapshot →
          v.createtxg ≤ s.createtxg :=
  c4_most_recent_amended [snapA, bookB, snapC] ⟨snapA, by decide, by decide⟩ (by decide)

/-- C5: the resolver consults the initial-replication policy only for a
NoCommonAncestor conflict with an empty receiver list: DivergedAfter and
non-empty-receiver NoCommonAncestor conflicts pass through unchanged under
every policy, MostRecentAlreadyPresent yields the empty path with no
error, NoCommonAncestor with both lists empty is a terminal error under
every policy, and on every conflict that is not NoCommonAncestor with an
empty receiver the result does not depend on the policy. -/
theorem c5_policy_scope (p q : ConflictResolution)
    (svs rvs msvs mrvs : List FilesystemVersion)
    (ca st rt : FilesystemVersion) :
    tryAutoresolveConflict (Conflict.divergedAfter ca st rt) p =
      Except.error (ResolveErr.conflict (Conflict.divergedAfter ca st rt))
    ∧ (rvs ≠ [] → tryAutoresolveConflict (Conflict.noCommonAncestor svs rvs) p =
        Except.error (ResolveErr.conflict (Conflict.noCommonAncestor svs rvs)))
    ∧ tryAutoresolveConflict (Conflict.mostRecentSnapshotAlreadyPresent msvs mrvs) p =
        Except.ok []
    ∧ tryAutoresolveConflict (Conflict.noCommonAncestor [] []) p =
        Except.error (ResolveErr.msg "no snapshots available on sender side")
    ∧ (∀ c : Conflict, (∀ svs2, c ≠ Conflict.noCommonAncestor svs2 []) →
        tryAutoresolveConflict c p = tryAutoresolveConflict c q) := by
  refine ⟨rfl, ?_, rfl, rfl, ?_⟩
  · intro h
    simp [tryAutoresolveConflict, h]
  · intro c hc
    cases c with
    | noCommonAncestor s r =>
      have hr : r ≠ [] := fun h => hc s (by rw [h])
      simp [tryAutoresolveConflict, hr]
    | divergedAfter a b d => rfl
    | mostRecentSnapshotAlreadyPresent a b => rfl

/-- Witness for C5 at concrete conflicts and the two policies All and
MostRecent. -/
theorem c5_policy_scope_witness :
    tryAutoresolveConflict (Conflict.noCommonAncestor [snapA] [snapB]) polAll =
      Except.error (ResolveErr.conflict (Conflict.noCommonAncestor [snapA] [snapB]))
    ∧ tryAutoresolveConflict (Conflict.divergedAfter snapA snapB snapC) polAll =
        tryAutoresolveConflict (Conflict.divergedAfter snapA snapB snapC) polMostRecent :=
  ⟨(c5_policy_scope polAll polMostRecent [snapA] [snapB] [] [] snapA snapB snapC).2.1
      (by decide),
   (c5_policy_scope polAll polMostRecent [snapA] [snapB] [] [] snapA snapB snapC).2.2.2.2
      (Conflict.divergedAfter snapA snapB snapC)
      (fun svs2 h => Conflict.noConfusion h)⟩

/-- Counterexample to C1: the non-empty incremental path [nil, @a, @b]
(produced for initial replication under policy All) yields, with one_step
set, a plan of length 2 in which neither step is a resume step: both steps
carry the empty resume token, so a length-2 plan does not require a
resume step followed by a collapsed tail. -/
theorem c1_counterexample :
    doPlanningNoResume sampleFS true [none, some snapA, some snapB] =
      Except.ok [⟨sampleFS, none, some snapA, "", 0, none⟩,
                 ⟨sampleFS, some snapA, some snapB, "", 0, none⟩]
    ∧ [⟨sampleFS, none, some snapA, "", 0, none⟩,
       (⟨sampleFS, some snapA, some snapB, "", 0, none⟩ : Step)].length = 2
    ∧ (⟨sampleFS, none, some snapA, "", 0, none⟩ : Step).resumeToken = ""
    ∧ (⟨sampleFS, some snapA, some snapB, "", 0, none⟩ : Step).resumeToken = "" :=
  ⟨rfl, rfl, rfl, rfl⟩

/-- C1 amended: for every plan derived with one_step = true from a
non-empty incremental path (whose entries after the head are snapshots),
the step list has length 1 or 2; length 2 happens exactly when the head of
the path is nil or a bookmark and the path has at least three entries, and
then the second step is a collapsed step from the second path entry to the
last; no step of this branch carries a resume token. -/
theorem c1_one_step_amended (fs : Filesystem)
    (x y : Option FilesystemVersion) (rest : List (Option FilesystemVersion))
    (htail : ∀ v ∈ y :: rest, ∃ fv, v = some fv ∧ fv.type = VersionType.snapshot) :
    ∀ steps, doPlanningNoResume fs true (x :: y :: rest) = Except.ok steps →
      (steps.length = 1 ∨ steps.length = 2)
      ∧ (steps.length = 2 ↔ (sendStreamCond true x = false ∧ rest ≠ []))
      ∧ (∀ s ∈ steps, s.resumeToken = "")
      ∧ (steps.length = 2 →
          steps = [⟨fs, x, y, "", 0, none⟩,
                   ⟨fs, y, rest.getLastD y, "", 0, none⟩]) := by
  intro steps hsteps
  have hsl : steps = stepsLoop fs true (x :: y :: rest) := by
    have : doPlanningNoResume fs true (x :: y :: rest) =
        Except.ok (stepsLoop fs true (x :: y :: rest)) := rfl
    rw [this] at hsteps
    exact (Except.ok.inj hsteps).symm
  subst hsl
  by_cases hx : sendStreamCond true x = true
  · rw [stepsLoop, if_pos hx]
    refine ⟨Or.inl rfl, ?_, ?_, ?_⟩
    · simp [hx]
    · intro s hs
      rcases List.mem_singleton.mp hs with rfl
      rfl
    · intro h
      simp at h
  · have hxf : sendStreamCond true x = false := by
      cases h : sendStreamCond true x
      · rfl
      · exact absurd h hx
    rw [stepsLoop, if_neg hx]
    cases rest with
    | nil =>
      have h2 : stepsLoop fs true [y] = [] := rfl
      rw [h2]
      refine ⟨Or.inl rfl, ?_, ?_, ?_⟩
      · simp
      · intro s hs
        rcases List.mem_singleton.mp hs with rfl
        rfl
      · intro h
        simp at h
    | cons r rs =>
      obtain ⟨fy, hfy, hfyt⟩ := htail y (List.mem_cons_self y (r :: rs))
      have hy : sendStreamCond true y = true := by
        rw [hfy]
        simp [sendStreamCond, hfyt]
      rw [stepsLoop, if_pos hy]
      refine ⟨Or.inr rfl, ?_, ?_, ?_⟩
      · simp [hxf]
      · intro s hs
        rcases List.mem_cons.mp hs with rfl | hs2
        · rfl
        · rcases List.mem_singleton.mp hs2 with rfl
          rfl
      · intro _
        simp only [List.getLastD_cons]

/-- Witness for C1 amended at the concrete path [nil, @a, @b]. -/
theorem c1_one_step_amended_witness :
    ([⟨sampleFS, none, some snapA, "", 0, none⟩,
      (⟨sampleFS, some snapA, some snapB, "", 0, none⟩ : Step)].length = 1 ∨
     [⟨sampleFS, none, some snapA, "", 0, none⟩,
      (⟨sampleFS, some snapA, some snapB, "", 0, none⟩ : Step)].length = 2)
    ∧ ([⟨sampleFS, none, some snapA, "", 0, none⟩,
        (⟨sampleFS, some snapA, some snapB, "", 0, none⟩ : Step)].length = 2 ↔
        (sendStreamCond true none = false ∧ ([some snapB] : List (Option FilesystemVersion)) ≠ []))
    ∧ (∀ s ∈ [⟨sampleFS, none, some snapA, "", 0, none⟩,
              (⟨sampleFS, some snapA, some snapB, "", 0, none⟩ : Step)], s.resumeToken = "")
    ∧ ([⟨sampleFS, none, some snapA, "", 0, none⟩,
        (⟨sampleFS, some snapA, some snapB, "", 0, none⟩ : Step)].length = 2 →
        [⟨sampleFS, none, some snapA, "", 0, none⟩,
         (⟨sampleFS, some snapA, some snapB, "", 0, none⟩ : Step)] =
          [⟨sampleFS, none, some snapA, "", 0, none⟩,
           ⟨sampleFS, some snapA, [some snapB].getLastD (some snapA), "", 0, none⟩]) :=
  c1_one_step_amended sampleFS none (some snapA) [some snapB]
    (by
      intro v hv
      rcases List.mem_cons.mp hv with rfl | hv2
      · exact ⟨snapA, rfl, rfl⟩
      · rcases List.mem_singleton.mp hv2 with rfl
        exact ⟨snapB, rfl, rfl⟩)
    [⟨sampleFS, none, some snapA, "", 0, none⟩,
     ⟨sampleFS, some snapA, some snapB, "", 0, none⟩] rfl

/-- Invariant of the to-version selection: whenever the scan holds a
selected to-version, the token has a to-guid, the version's GUID equals it
and the version is a snapshot. -/
def toSelOK (tok : ResumeToken) (o : Option (Nat × FilesystemVersion)) : Prop :=
  ∀ p : Nat × FilesystemVersion, o = some p →
    tok.hasToGUID = true ∧ p.2.guid = tok.toGUID ∧ p.2.type = VersionType.snapshot

/-- Invariant of the from-version selection: whenever the scan holds a
selected from-version, the token has a from-guid and the version's GUID
equals it. -/
def fromSelOK (tok : ResumeToken) (o : Option (Nat × FilesystemVersion)) : Prop :=
  ∀ p : Nat × FilesystemVersion, o = some p →
    tok.hasFromGUID = true ∧ p.2.guid = tok.fromGUID

theorem scanResume_toSelOK (tok : ResumeToken) :
    ∀ (l : List FilesystemVersion) (i : Nat) fromS toS, toSelOK tok toS →
      toSelOK tok (scanResume tok i fromS toS l).2 := by
  intro l
  induction l with
  | nil =>
    intro i fromS toS h
    simpa [scanResume_nil] using h
  | cons v rest ih =>
    intro i fromS toS h
    rw [scanResume_cons]
    apply ih
    by_cases hc : tok.hasToGUID = true ∧ v.guid = tok.toGUID ∧ v.type = VersionType.snapshot
    · rw [if_pos hc]
      intro p hp
      cases Option.some.inj hp
      exact ⟨hc.1, hc.2.1, hc.2.2⟩
    · rw [if_neg hc]
      exact h

theorem scanResume_fromSelOK (tok : ResumeToken) :
    ∀ (l : List FilesystemVersion) (i : Nat) fromS toS, fromSelOK tok fromS →
      fromSelOK tok (scanResume tok i fromS toS l).1 := by
  intro l
  induction l with
  | nil =>
    intro i fromS toS h
    simpa [scanResume_nil] using h
  | cons v rest ih =>
    intro i fromS toS h
    rw [scanResume_cons]
    apply ih
    by_cases hc : tok.hasFromGUID = true ∧ v.guid = tok.fromGUID
    · rw [if_pos hc]
      cases fromS with
      | none =>
        intro p hp
        cases Option.some.inj hp
        exact ⟨hc.1, hc.2⟩
      | some q =>
        show fromSelOK tok
          (if q.2.type = VersionType.snapshot then some q else some (i, v))
        by_cases hq : q.2.type = VersionType.snapshot
        · rw [if_pos hq]
          exact h
        · rw [if_neg hq]
          intro p hp
          cases Option.some.inj hp
          exact ⟨hc.1, hc.2⟩
    · rw [if_neg hc]
      exact h

theorem scanResume_fromSel_found (tok : ResumeToken) :
    ∀ (l : List FilesystemVersion) (i : Nat) fromS toS,
      tok.hasFromGUID = true →
      ((∃ v ∈ l, v.guid = tok.fromGUID) ∨ fromS.isSome = true) →
      ((scanResume tok i fromS toS l).1).isSome = true := by
  intro l
  induction l with
  | nil =>
    intro i fromS toS _ hex
    rcases hex with ⟨v, hv, _⟩ | hs
    · simp at hv
    · simpa [scanResume_nil] using hs
  | cons v rest ih =>
    intro i fromS toS hf hex
    rw [scanResume_cons]
    by_cases hguid : v.guid = tok.fromGUID
    · apply ih _ _ _ hf
      right
      rw [if_pos (⟨hf, hguid⟩ : tok.hasFromGUID = true ∧ v.guid = tok.fromGUID)]
      cases fromS with
      | none => rfl
      | some q =>
        show (if q.2.type = VersionType.snapshot then some q
          else some (i, v)).isSome = true
        by_cases hq : q.2.type = VersionType.snapshot
        · rw [if_pos hq]
          rfl
        · rw [if_neg hq]
          rfl
    · have hcond : ¬(tok.hasFromGUID = true ∧ v.guid = tok.fromGUID) :=
        fun hc => hguid hc.2
      rw [if_neg hcond]
      apply ih _ _ _ hf
      rcases hex with ⟨w, hw, hwg⟩ | hs
      · rcases List.mem_cons.mp hw with rfl | hw2
        · exact absurd hwg hguid
        · exact Or.inl ⟨w, hw2, hwg⟩
      · exact Or.inr hs

theorem scanResume_toS_stable (tok : ResumeToken) :
    ∀ (l : List FilesystemVersion) (i : Nat) fromS toS,
      (∀ v ∈ l, ¬(v.guid = tok.toGUID ∧ v.type = VersionType.snapshot)) →
      (scanResume tok i fromS toS l).2 = toS := by
  intro l
  induction l with
  | nil =>
    intro i fromS toS _
    simp [scanResume_nil]
  | cons v rest ih =>
    intro i fromS toS h
    rw [scanResume_cons]
    have hcond : ¬(tok.hasToGUID = true ∧ v.guid = tok.toGUID ∧ v.type = VersionType.snapshot) :=
      fun hc => h v (List.mem_cons_self v rest) ⟨hc.2.1, hc.2.2⟩
    rw [if_neg hcond]
    exact ih _ _ _ (fun w hw => h w (List.mem_cons_of_mem _ hw))

/-- C2 amended: for a resume token whose to-version is found on the sender
(and from/to resolving to distinct versions), with one_step set and more
than one sender snapshot remaining at or after the resume point, the plan
is exactly the resume step (raw token, uncollapsed) followed by one
collapsed step from the first to the last remaining snapshot; in every
such derivation the first step's to-GUID equals the token's to-guid, and
when the token has a from-guid that some sender version carries, the
first step's from-GUID equals it (without such a sender version the
from-version is nil and its GUID reads as 0). -/
theorem c2_resume_one_step_amended (fs : Filesystem) (raw : String)
    (tok : ResumeToken) (sfsvs : List FilesystemVersion)
    (fromS : Option (Nat × FilesystemVersion)) (tsel : Nat × FilesystemVersion)
    (hscan : scanResume tok 0 none none (sortVersions sfsvs) = (fromS, some tsel))
    (hne : fromS.map Prod.fst ≠ some tsel.1) :
    (∀ r0 r1 rest,
        ((sortVersions sfsvs).drop tsel.1).filter
            (fun v => v.type == VersionType.snapshot) = r0 :: r1 :: rest →
        planResume fs true raw tok sfsvs =
          Except.ok [⟨fs, fromS.map Prod.snd, some tsel.2, raw, 0, none⟩,
                     ⟨fs, some r0, some (rest.getLastD r1), "", 0, none⟩])
    ∧ GetGuid (some tsel.2) = tok.toGUID
    ∧ (tok.hasFromGUID = true → (∃ v ∈ sfsvs, v.guid = tok.fromGUID) →
        GetGuid (fromS.map Prod.snd) = tok.fromGUID) := by
  refine ⟨?_, ?_, ?_⟩
  · intro r0 r1 rest hrem
    unfold planResume
    rw [hscan]
    cases fromS with
    | none =>
      show planResumeSteps fs true raw none tsel (sortVersions sfsvs) = _
      unfold planResumeSteps
      rw [if_pos rfl, hrem]
      rfl
    | some p =>
      have hne2 : p.1 ≠ tsel.1 := by simpa using hne
      show (if p.1 = tsel.1 then
              Except.error "resume token fromguid and toguid match same version on sender"
            else planResumeSteps fs true raw (some p.2) tsel (sortVersions sfsvs)) = _
      rw [if_neg hne2]
      unfold planResumeSteps
      rw [if_pos rfl, hrem]
      rfl
  · have hOK := scanResume_toSelOK tok (sortVersions sfsvs) 0 none none
      (fun p hp => by cases hp)
    have h2 : (scanResume tok 0 none none (sortVersions sfsvs)).2 = some tsel :=
      congrArg Prod.snd hscan
    have := hOK tsel h2
    simpa [GetGuid] using this.2.1
  · rintro hf ⟨v, hv, hvg⟩
    have hvs : v ∈ sortVersions sfsvs :=
      (List.perm_insertionSort versionLE sfsvs).mem_iff.mpr hv
    have hsome : ((scanResume tok 0 none none (sortVersions sfsvs)).1).isSome = true :=
      scanResume_fromSel_found tok (sortVersions sfsvs) 0 none none hf
        (Or.inl ⟨v, hvs, hvg⟩)
    have h1 : (scanResume tok 0 none none (sortVersions sfsvs)).1 = fromS :=
      congrArg Prod.fst hscan
    rw [h1] at hsome
    cases fromS with
    | none => simp at hsome
    | some p =>
      have hOK := scanResume_fromSelOK tok (sortVersions sfsvs) 0 none none
        (fun q hq => by cases hq)
      have := hOK p (by rw [h1])
      simpa [GetGuid] using this.2

/-- Resume token used by the C2 witness: to-guid 1, no from-guid. -/
def tokW : ResumeToken := ⟨false, 0, true, 1, "a"⟩

/-- Witness for C2 amended: sender snapshots @a, @b, @c, resume point @a,
one_step collapses the remaining tail into @a -> @c after the resume
step. -/
theorem c2_resume_one_step_amended_witness :
    planResume sampleFS true "rawtok" tokW [snapA, snapB, snapC] =
      Except.ok [⟨sampleFS, none, some snapA, "rawtok", 0, none⟩,
                 ⟨sampleFS, some snapA, some ([snapC].getLastD snapB), "", 0, none⟩]
    ∧ GetGuid (some snapA) = tokW.toGUID :=
  ⟨((c2_resume_one_step_amended sampleFS "rawtok" tokW [snapA, snapB, snapC]
      none (0, snapA) (by decide) (by decide)).1) snapA snapB [snapC] (by decide),
   (c2_resume_one_step_amended sampleFS "rawtok" tokW [snapA, snapB, snapC]
      none (0, snapA) (by decide) (by decide)).2.1⟩

/-- Resume token used by the C2 counterexample: from-guid 42 absent from
the sender, to-guid 1 present. -/
def tokCE : ResumeToken := ⟨true, 42, true, 1, "a"⟩

/-- Counterexample to C2: the token has a from-guid (42) that no sender
version carries; the plan is still derived, its first step's from-version
is nil, and its from-GUID reads 0, not 42. -/
theorem c2_counterexample :
    tokCE.hasFromGUID = true
    ∧ planResume sampleFS true "rawtok" tokCE [snapA] =
        Except.ok [⟨sampleFS, none, some snapA, "rawtok", 0, none⟩]
    ∧ GetGuid ((⟨sampleFS, none, some snapA, "rawtok", 0, none⟩ : Step).fromV) ≠
        tokCE.fromGUID :=
  ⟨rfl, rfl, by decide⟩

/-- C6: in the resume branch, when no sender version is a snapshot whose
GUID equals the token's to-guid, planning fails with an error and emits no
steps; and when the token's from-guid and to-guid resolve to the same
sender version, planning fails with a fatal error and emits no steps. -/
theorem c6_resume_token_errors (fs : Filesystem) (oneStep : Bool) (raw : String)
    (tok : ResumeToken) (sfsvs : List FilesystemVersion) :
    ((∀ v ∈ sfsvs, ¬(v.guid = tok.toGUID ∧ v.type = VersionType.snapshot)) →
      planResume fs oneStep raw tok sfsvs =
        Except.error "resume token toguid not found on sender")
    ∧ (∀ fsel tsel,
        scanResume tok 0 none none (sortVersions sfsvs) = (some fsel, some tsel) →
        fsel.1 = tsel.1 →
        planResume fs oneStep raw tok sfsvs =
          Except.error "resume token fromguid and toguid match same version on sender") := by
  constructor
  · intro h
    have hsortmem : ∀ v ∈ sortVersions sfsvs,
        ¬(v.guid = tok.toGUID ∧ v.type = VersionType.snapshot) := by
      intro v hv
      exact h v ((List.perm_insertionSort versionLE sfsvs).mem_iff.mp hv)
    have h2 : (scanResume tok 0 none none (sortVersions sfsvs)).2 = none :=
      scanResume_toS_stable tok (sortVersions sfsvs) 0 none none hsortmem
    have h3 : scanResume tok 0 none none (sortVersions sfsvs) =
        ((scanResume tok 0 none none (sortVersions sfsvs)).1,
         (scanResume tok 0 none none (sortVersions sfsvs)).2) := rfl
    rcases hfst : (scanResume tok 0 none none (sortVersions sfsvs)).1 with _ | p <;>
      · rw [hfst, h2] at h3
        unfold planResume
        rw [h3]
  · intro fsel tsel hscan heq
    unfold planResume
    rw [hscan]
    show (if fsel.1 = tsel.1 then
            Except.error "resume token fromguid and toguid match same version on sender"
          else planResumeSteps fs oneStep raw (some fsel.2) tsel (sortVersions sfsvs)) =
        Except.error "resume token fromguid and toguid match same version on sender"
    rw [if_pos heq]

/-- Resume token used by the C6 witness for the missing to-guid case. -/
def tokMissing : ResumeToken := ⟨false, 0, true, 99, "zz"⟩

/-- Resume token used by the C6 witness for the same-version case: the
from-guid and to-guid are both 7. -/
def tokSame : ResumeToken := ⟨true, 7, true, 7, "s7"⟩

/-- Snapshot with GUID 7 used by the C6 witness. -/
def snapG7 : FilesystemVersion := ⟨VersionType.snapshot, "s7", 7, 4⟩

/-- Bookmark with GUID 7 used by the C6 witness. -/
def bookG7 : FilesystemVersion := ⟨VersionType.bookmark, "s7", 7, 4⟩

/-- Witness for C6 at concrete inputs: a token whose to-guid is absent
fails, and a token whose from-guid and to-guid both resolve to the sender
snapshot with GUID 7 fails. -/
theorem c6_resume_token_errors_witness :
    planResume sampleFS true "raw" tokMissing [snapA, snapB] =
      Except.error "resume token toguid not found on sender"
    ∧ planResume sampleFS true "raw" tokSame [bookG7, snapG7] =
        Except.error "resume token fromguid and toguid match same version on sender" :=
  ⟨(c6_resume_token_errors sampleFS true "raw" tokMissing [snapA, snapB]).1
      (by decide),
   (c6_resume_token_errors sampleFS true "raw" tokSame [bookG7, snapG7]).2
      (1, snapG7) (1, snapG7) (by decide) rfl⟩

/-- C7: when Send succeeds with a non-nil result and stream, the receive
request carries clear_resume_token equal to the negation of the send
result's used_resume_token flag and Receive is called exactly once with
it; when Send returns a nil result, or a nil stream alongside a non-nil
result, the step fails with an error and Receive is never called. -/
theorem c7_send_recv (s : Step) (receive : ReceiveReq → Except String Unit)
    (sres : SendRes) (sid : Nat) (stOpt : Option Nat) :
    sendRecvModel s (SendOutcome.ok (some sres) (some sid)) receive =
      (receive ⟨s.parent.Path, s.toV, !sres.usedResumeToken⟩,
       [⟨s.parent.Path, s.toV, !sres.usedResumeToken⟩])
    ∧ sendRecvModel s (SendOutcome.ok none stOpt) receive =
        (Except.error "send request returned nil send result", [])
    ∧ sendRecvModel s (SendOutcome.ok (some sres) none) receive =
        (Except.error "send request did not return a stream, broken endpoint implementation",
         []) := by
  refine ⟨rfl, ?_, rfl⟩
  cases stOpt <;> rfl

/-- C8 amended: TargetEquals returns true exactly when the two parents
have equal paths and the (from-GUID, to-GUID) pairs match; it panics
exactly when the parents' paths differ. Parents are compared by path
only, so two distinct parent filesystems with the same path do not
panic. -/
theorem c8_target_equals_amended (s t : Step) :
    (TargetEquals s t = Except.ok true ↔
      (s.parent.Path = t.parent.Path ∧ GetGuid s.fromV = GetGuid t.fromV ∧
        GetGuid s.toV = GetGuid t.toV))
    ∧ ((∃ e, TargetEquals s t = Except.error e) ↔ s.parent.Path ≠ t.parent.Path) := by
  unfold TargetEquals Filesystem.EqualToPreviousAttempt
  by_cases h : s.parent.Path = t.parent.Path
  · constructor
    · simp [h]
    · simp [h]
  · constructor
    · simp [h]
    · simp [h]

/-- Planning filesystem sharing sampleFS's path but with a different
sender descriptor, hence a distinct parent object. -/
def sampleFS2 : Filesystem := ⟨"zroot/data", ⟨"zroot/data", true, ""⟩, none⟩

/-- Counterexample to C8: two steps whose parent filesystems are distinct
yet share the same path do not make TargetEquals panic; with matching
GUID pairs it returns true. -/
theorem c8_counterexample :
    sampleFS ≠ sampleFS2
    ∧ sampleFS.Path = sampleFS2.Path
    ∧ TargetEquals ⟨sampleFS, some snapA, some snapB, "", 0, none⟩
        ⟨sampleFS2, some snapA, some snapB, "", 0, none⟩ = Except.ok true := by
  refine ⟨by decide, rfl, rfl⟩

/-- C9: before the byte counter is installed ReportInfo reports zero bytes
replicated; the From field is empty exactly when the step is a full send
(nil from-version); the Resumed flag is set exactly when the step's
resume token string is non-empty. -/
theorem c9_report_info (s : Step) (tv : FilesystemVersion) (info : StepInfo)
    (htv : s.toV = some tv) (hinfo : ReportInfo s = some info) :
    (s.byteCounter = none → info.BytesReplicated = 0)
    ∧ (info.From = "" ↔ s.fromV = none)
    ∧ (info.Resumed = true ↔ s.resumeToken ≠ "") := by
  unfold ReportInfo at hinfo
  rw [htv] at hinfo
  have hinfo2 := Option.some.inj hinfo
  subst hinfo2
  refine ⟨?_, ?_, ?_⟩
  · intro hbc
    simp [hbc]
  · cases hf : s.fromV with
    | none => simp [hf]
    | some v =>
      simp only [hf]
      constructor
      · intro h
        exact absurd h (relName_ne_empty v)
      · intro h
        cases h
  · simp [bne_iff_ne]

/-- Witness for C9 at a concrete resumed full-send step without a byte
counter. -/
theorem c9_report_info_witness :
    ((⟨sampleFS, none, some snapA, "tok", 0, none⟩ : Step).byteCounter = none →
      (⟨"", relName snapA, true, 0, 0⟩ : StepInfo).BytesReplicated = 0)
    ∧ ((⟨"", relName snapA, true, 0, 0⟩ : StepInfo).From = "" ↔
        (⟨sampleFS, none, some snapA, "tok", 0, none⟩ : Step).fromV = none)
    ∧ ((⟨"", relName snapA, true, 0, 0⟩ : StepInfo).Resumed = true ↔
        (⟨sampleFS, none, some snapA, "tok", 0, none⟩ : Step).resumeToken ≠ "") :=
  c9_report_info ⟨sampleFS, none, some snapA, "tok", 0, none⟩ snapA
    ⟨"", relName snapA, true, 0, 0⟩ rfl rfl

theorem groupBatchesFuel_zero (maxB : Int) (l : List DestroySnapOp) :
    groupBatchesFuel maxB 0 l = [] := by
  cases l <;> rfl

theorem groupBatchesFuel_nil (maxB : Int) (fuel : Nat) :
    groupBatchesFuel maxB fuel [] = [] := by
  cases fuel <;> rfl

theorem groupBatchesFuel_succ_cons (maxB : Int) (fuel : Nat) (x : DestroySnapOp)
    (xs : List DestroySnapOp) :
    groupBatchesFuel maxB (fuel + 1) (x :: xs) =
      (x :: (takeSameFS x.Filesystem maxB 1 xs).1) ::
        groupBatchesFuel maxB fuel (takeSameFS x.Filesystem maxB 1 xs).2 := rfl

theorem groupBatchesFuel_mem (maxB : Int) :
    ∀ (fuel : Nat) (l : List DestroySnapOp) b, b ∈ groupBatchesFuel maxB fuel l →
      ∀ r ∈ b, r ∈ l := by
  intro fuel
  induction fuel with
  | zero =>
    intro l b hb
    rw [groupBatchesFuel_zero] at hb
    simp at hb
  | succ n ih =>
    intro l b hb r hr
    cases l with
    | nil =>
      rw [groupBatchesFuel_nil] at hb
      simp at hb
    | cons x xs =>
      rw [groupBatchesFuel_succ_cons] at hb
      rcases List.mem_cons.mp hb with rfl | hb2
      · rcases List.mem_cons.mp hr with rfl | hr2
        · exact List.mem_cons_self _ _
        · refine List.mem_cons_of_mem x ?_
          rw [← takeSameFS_append x.Filesystem maxB 1 xs]
          exact List.mem_append_left _ hr2
      · refine List.mem_cons_of_mem x ?_
        rw [← takeSameFS_append x.Filesystem maxB 1 xs]
        exact List.mem_append_right _ (ih _ b hb2 r hr)

theorem groupBatchesFuel_homog (maxB : Int) :
    ∀ (fuel : Nat) (l : List DestroySnapOp) b, b ∈ groupBatchesFuel maxB fuel l →
      ∃ x bs, b = x :: bs ∧ ∀ r ∈ b, r.Filesystem = x.Filesystem := by
  intro fuel
  induction fuel with
  | zero =>
    intro l b hb
    rw [groupBatchesFuel_zero] at hb
    simp at hb
  | succ n ih =>
    intro l b hb
    cases l with
    | nil =>
      rw [groupBatchesFuel_nil] at hb
      simp at hb
    | cons x xs =>
      rw [groupBatchesFuel_succ_cons] at hb
      rcases List.mem_cons.mp hb with rfl | hb2
      · refine ⟨x, (takeSameFS x.Filesystem maxB 1 xs).1, rfl, ?_⟩
        intro r hr
        rcases List.mem_cons.mp hr with rfl | hr2
        · rfl
        · exact takeSameFS_fst_fs x.Filesystem maxB 1 xs r hr2
      · exact ih _ b hb2

theorem groupBatchesFuel_flatten (maxB : Int) :
    ∀ (fuel : Nat) (l : List DestroySnapOp), l.length ≤ fuel →
      (groupBatchesFuel maxB fuel l).flatten = l := by
  intro fuel
  induction fuel with
  | zero =>
    intro l hl
    have : l = [] := List.eq_nil_of_length_eq_zero (Nat.le_zero.mp hl)
    subst this
    simp [groupBatchesFuel_nil]
  | succ n ih =>
    intro l hl
    cases l with
    | nil => simp [groupBatchesFuel_nil]
    | cons x xs =>
      rw [groupBatchesFuel_succ_cons, List.flatten_cons]
      rw [ih _ (le_trans (takeSameFS_snd_length x.Filesystem maxB 1 xs)
        (Nat.succ_le_succ_iff.mp (by simpa using hl)))]
      simp only [List.cons_append, takeSameFS_append]

/-- C10: every destroy request with an empty filesystem or name is
assigned an error by validation; every op inside every batch built from
the validated requests has a non-empty filesystem and name (so invalid
requests never reach the destroyer); every built batch is homogeneous in
its filesystem, so tryBatch never hits its inconsistent-batch panic; and
the batches partition the validated requests. -/
theorem c10_destroy_batching (reqs : List DestroySnapOp) (maxB : Int) :
    (∀ r ∈ reqs, (r.Filesystem = "" ∨ r.Name = "") → (validationError r).isSome = true)
    ∧ (∀ b ∈ buildBatches maxB (validatedReqs reqs), ∀ r ∈ b,
        r.Filesystem ≠ "" ∧ r.Name ≠ "")
    ∧ (∀ b ∈ buildBatches maxB (validatedReqs reqs), ∃ arg, tryBatch b = Except.ok arg)
    ∧ (buildBatches maxB (validatedReqs reqs)).flatten.Perm (validatedReqs reqs) := by
  have hmemval : ∀ b ∈ buildBatches maxB (validatedReqs reqs), ∀ r ∈ b,
      r ∈ validatedReqs reqs := by
    intro b hb r hr
    unfold buildBatches at hb
    by_cases hv : validatedReqs reqs = []
    · rw [if_pos hv] at hb
      simp at hb
    · rw [if_neg hv] at hb
      have hmem := groupBatchesFuel_mem maxB (sortedOps (validatedReqs reqs)).length
        (sortedOps (validatedReqs reqs)) b hb r hr
      exact (List.perm_insertionSort leOp (validatedReqs reqs)).mem_iff.mp hmem
  have hhomog : ∀ b ∈ buildBatches maxB (validatedReqs reqs),
      ∃ x bs, b = x :: bs ∧ ∀ r ∈ b, r.Filesystem = x.Filesystem := by
    intro b hb
    unfold buildBatches at hb
    by_cases hv : validatedReqs reqs = []
    · rw [if_pos hv] at hb
      simp at hb
    · rw [if_neg hv] at hb
      exact groupBatchesFuel_homog maxB (sortedOps (validatedReqs reqs)).length
        (sortedOps (validatedReqs reqs)) b hb
  refine ⟨?_, ?_, ?_, ?_⟩
  · intro r _ h
    unfold validationError
    rcases h with h | h
    · rw [if_pos h]
      rfl
    · by_cases hfs : r.Filesystem = ""
      · rw [if_pos hfs]
        rfl
      · rw [if_neg hfs, if_pos h]
        rfl
  · intro b hb r hr
    have h2 := (List.mem_filter.mp (hmemval b hb r hr)).2
    constructor
    · intro hfs
      unfold validationError at h2
      rw [if_pos hfs] at h2
      simp at h2
    · intro hn
      unfold validationError at h2
      by_cases hfs : r.Filesystem = ""
      · rw [if_pos hfs] at h2
        simp at h2
      · rw [if_neg hfs, if_pos hn] at h2
        simp at h2
  · intro b hb
    obtain ⟨x, bs, rfl, hfs⟩ := hhomog b hb
    have hall : (x :: bs).all (fun r => r.Filesystem == x.Filesystem) = true := by
      rw [List.all_eq_true]
      intro r hr
      simp [hfs r hr]
    refine ⟨some (x.Filesystem ++ "@" ++
      String.intercalate "," ((x :: bs).map (fun r => r.Name))), ?_⟩
    show (if (x :: bs).all (fun r => r.Filesystem == x.Filesystem) = true then
            Except.ok (some (x.Filesystem ++ "@" ++
              String.intercalate "," ((x :: bs).map (fun r => r.Name))))
          else Except.error "inconsistent batch") =
        Except.ok (some (x.Filesystem ++ "@" ++
          String.intercalate "," ((x :: bs).map (fun r => r.Name))))
    rw [if_pos hall]
  · unfold buildBatches
    by_cases hv : validatedReqs reqs = []
    · rw [if_pos hv, hv]
      rfl
    · rw [if_neg hv]
      have hfl := groupBatchesFuel_flatten maxB (sortedOps (validatedReqs reqs)).length
        (sortedOps (validatedReqs reqs)) (le_refl _)
      have : (groupBatches maxB (sortedOps (validatedReqs reqs))).flatten =
          sortedOps (validatedReqs reqs) := hfl
      rw [this]
      exact List.perm_insertionSort leOp (validatedReqs reqs)

/-- Concrete request list for the C10 witness: two invalid requests, two
requests on one filesystem and one on another. -/
def reqsW : List DestroySnapOp :=
  [⟨"", "s1"⟩, ⟨"tank", ""⟩, ⟨"tank", "s1"⟩, ⟨"tank", "s2"⟩, ⟨"rpool", "s3"⟩]

/-- Witness for C10 at the concrete request list and an unbounded batch
size. -/
theorem c10_destroy_batching_witness :
    (validationError ⟨"", "s1"⟩).isSome = true
    ∧ ((⟨"tank", "s1"⟩ : DestroySnapOp).Filesystem ≠ "" ∧
        (⟨"tank", "s1"⟩ : DestroySnapOp).Name ≠ "")
    ∧ (∃ arg, tryBatch [⟨"tank", "s1"⟩, ⟨"tank", "s2"⟩] = Except.ok arg)
    ∧ (buildBatches 0 (validatedReqs reqsW)).flatten.Perm (validatedReqs reqsW) :=
  ⟨(c10_destroy_batching reqsW 0).1 ⟨"", "s1"⟩ (by decide) (Or.inl rfl),
   (c10_destroy_batching reqsW 0).2.1 [⟨"tank", "s1"⟩, ⟨"tank", "s2"⟩] (by decide)
     ⟨"tank", "s1"⟩ (by decide),
   (c10_destroy_batching reqsW 0).2.2.1 [⟨"tank", "s1"⟩, ⟨"tank", "s2"⟩] (by decide),
   (c10_destroy_batching reqsW 0).2.2.2⟩
